import Mathlib

/-!
Verification of the filter / search / statistics pipeline of the
Horizonte-Europa dashboard (`app/dashboard.py`, `app/utils.py`).

The tabular data model is embedded shallowly: a cell is a null (pandas
`NaN`/`None`), a string, or a number (modelled as `Rat`; the claims under
study do not depend on floating-point rounding); a row is an association
list from column names to cells and a dataframe carries its column list
and its row list.  Boolean-mask selection on a dataframe becomes
`List.filter` on the rows, which preserves relative order exactly as
pandas does.
-/

namespace HorizonteEU

/-- A cell of the table: null (`NaN`), text, or numeric. -/
inductive Cell where
  | null : Cell
  | str : String → Cell
  | num : Rat → Cell
deriving DecidableEq

/-- A row: association list from column name to cell. -/
abbrev Row := List (String × Cell)

/-- Reading a cell of a row; a column not stored in the row reads as null. -/
def getCell (r : Row) (c : String) : Cell :=
  ((r.lookup c).getD Cell.null)

/-- A dataframe: column list plus row list. -/
structure DataFrame where
  cols : List String
  rows : List Row
deriving DecidableEq

/-- A value of the Python `filters` dict: `None`, a scalar, or a list. -/
inductive FilterVal where
  | vnone : FilterVal
  | scalar : Cell → FilterVal
  | list : List Cell → FilterVal
deriving DecidableEq

/-- Python truthiness of a scalar cell: `""` and `0` are falsy; a float
`NaN` is truthy. -/
def cellTruthy : Cell → Bool
  | Cell.null => true
  | Cell.str s => s ≠ ""
  | Cell.num q => q ≠ 0

/-- Python truthiness of a filter value (`if value:` / `if values:`):
`None` and the empty list are falsy. -/
def truthyFV : FilterVal → Bool
  | FilterVal.vnone => false
  | FilterVal.scalar c => cellTruthy c
  | FilterVal.list cs => !cs.isEmpty

/-- pandas `==` on cells: null (`NaN`) compares unequal to everything,
including itself; values of different kinds compare unequal. -/
def cellEq : Cell → Cell → Bool
  | Cell.str s, Cell.str t => s = t
  | Cell.num x, Cell.num y => x = y
  | _, _ => false

/-- pandas `Series.isin`: hash-based membership, under which a null cell
does match a null in the value list. -/
def isinB (c : Cell) (vs : List Cell) : Bool :=
  vs.any (fun v => c = v)

/-- One iteration of the loop of `apply_filters` (dashboard.py 85-90):
`if value and key in df_filtered.columns:` then a list filters by `isin`
(the `len(value) > 0` test is redundant after truthiness) and a scalar
other than the sentinel `"Todos"` filters by equality.  `none` means the
iteration leaves the dataframe untouched. -/
def applyStepPred (cols : List String) (key : String) (value : FilterVal) :
    Option (Row → Bool) :=
  if truthyFV value = true ∧ key ∈ cols then
    match value with
    | FilterVal.list vs =>
        if 0 < vs.length then some (fun r => isinB (getCell r key) vs) else none
    | FilterVal.scalar c =>
        if c ≠ Cell.str "Todos" then some (fun r => cellEq (getCell r key) c) else none
    | FilterVal.vnone => none
  else none

/-- One iteration of the loop of `filter_dataframe` (utils.py 134-139):
`if values and column in df_filtered.columns:` then a list filters by
`isin` and any scalar — including `"Todos"`, which this function does not
treat as a sentinel — filters by equality. -/
def utilsStepPred (cols : List String) (column : String) (values : FilterVal) :
    Option (Row → Bool) :=
  if truthyFV values = true ∧ column ∈ cols then
    match values with
    | FilterVal.list vs => some (fun r => isinB (getCell r column) vs)
    | FilterVal.scalar c => some (fun r => cellEq (getCell r column) c)
    | FilterVal.vnone => none
  else none

/-- The shared loop shape of both filter functions: iterate over the
`filters` dict entries, each active entry replacing the working dataframe
by its boolean-mask selection.  The initial `df.copy()` of the sources is
the identity on contents.  Filtering never changes the column list, so
testing `key in df_filtered.columns` against the current dataframe is
testing it against the original column list. -/
def runFilters (sp : List String → String → FilterVal → Option (Row → Bool))
    (df : DataFrame) : List (String × FilterVal) → DataFrame
  | [] => df
  | (key, value) :: rest =>
    match sp df.cols key value with
    | some p => runFilters sp ⟨df.cols, df.rows.filter p⟩ rest
    | none => runFilters sp df rest

/-- `apply_filters` of dashboard.py (lines 81-92). -/
def apply_filters (df : DataFrame) (filters : List (String × FilterVal)) : DataFrame :=
  runFilters applyStepPred df filters

/-- `filter_dataframe` of utils.py (lines 121-141). -/
def filter_dataframe (df : DataFrame) (filters : List (String × FilterVal)) : DataFrame :=
  runFilters utilsStepPred df filters

/-- The predicate an optional filter step imposes on a row (`none` = no
constraint). -/
def predOf (o : Option (Row → Bool)) (r : Row) : Bool :=
  match o with
  | some p => p r
  | none => true

/-- Conjunction of all the step predicates of a filter mapping. -/
def allSteps (sp : List String → String → FilterVal → Option (Row → Bool))
    (cols : List String) (fs : List (String × FilterVal)) (r : Row) : Bool :=
  fs.all (fun kv => predOf (sp cols kv.1 kv.2) r)

theorem runFilters_cons (sp : List String → String → FilterVal → Option (Row → Bool))
    (df : DataFrame) (key : String) (value : FilterVal)
    (rest : List (String × FilterVal)) :
    runFilters sp df ((key, value) :: rest) =
      match sp df.cols key value with
      | some p => runFilters sp ⟨df.cols, df.rows.filter p⟩ rest
      | none => runFilters sp df rest := rfl

theorem runFilters_eq_filter
    (sp : List String → String → FilterVal → Option (Row → Bool)) :
    ∀ (fs : List (String × FilterVal)) (df : DataFrame),
    runFilters sp df fs = ⟨df.cols, df.rows.filter (allSteps sp df.cols fs)⟩ := by
  intro fs
  induction fs with
  | nil =>
    intro df
    show df = _
    have h : df.rows.filter (allSteps sp df.cols []) = df.rows :=
      List.filter_eq_self.mpr (fun a _ => rfl)
    rw [h]
  | cons kv rest ih =>
    intro df
    obtain ⟨key, value⟩ := kv
    rw [runFilters_cons]
    cases hsp : sp df.cols key value with
    | some p =>
      show runFilters sp ⟨df.cols, df.rows.filter p⟩ rest = _
      rw [ih ⟨df.cols, df.rows.filter p⟩]
      simp only [List.filter_filter]
      congr 1
      apply List.filter_congr
      intro r _
      simp only [allSteps, List.all_cons, predOf, hsp]
      cases p r <;> simp
    | none =>
      show runFilters sp df rest = _
      rw [ih df]
      congr 1
      apply List.filter_congr
      intro r _
      simp [allSteps, predOf, hsp]

theorem runFilters_skip
    (sp : List String → String → FilterVal → Option (Row → Bool))
    (k : String) (v : FilterVal) (hv : ∀ cols, sp cols k v = none) :
    ∀ (fs₁ : List (String × FilterVal)) (df : DataFrame)
    (fs₂ : List (String × FilterVal)),
    runFilters sp df (fs₁ ++ (k, v) :: fs₂) = runFilters sp df (fs₁ ++ fs₂) := by
  intro fs₁
  induction fs₁ with
  | nil =>
    intro df fs₂
    show runFilters sp df ((k, v) :: fs₂) = _
    rw [runFilters_cons, hv df.cols]
    rfl
  | cons kv rest ih =>
    intro df fs₂
    obtain ⟨key, value⟩ := kv
    show runFilters sp df ((key, value) :: (rest ++ (k, v) :: fs₂)) =
      runFilters sp df ((key, value) :: (rest ++ fs₂))
    rw [runFilters_cons, runFilters_cons]
    cases hsp : sp df.cols key value with
    | some p => exact ih ⟨df.cols, df.rows.filter p⟩ fs₂
    | none => exact ih df fs₂

theorem applyStepPred_todos (cols : List String) (k : String) :
    applyStepPred cols k (FilterVal.scalar (Cell.str "Todos")) = none := by
  unfold applyStepPred
  split
  · simp
  · rfl

theorem applyStepPred_nil_list (cols : List String) (k : String) :
    applyStepPred cols k (FilterVal.list []) = none := by
  unfold applyStepPred
  split
  · rename_i hcond
    simp [truthyFV] at hcond
  · rfl

theorem utilsStepPred_nil_list (cols : List String) (k : String) :
    utilsStepPred cols k (FilterVal.list []) = none := by
  unfold utilsStepPred
  split
  · rename_i hcond
    simp [truthyFV] at hcond
  · rfl

/-- C1 (amended): in `apply_filters` a constraint whose value is the
scalar sentinel `"Todos"` or the empty list imposes no restriction, and in
`filter_dataframe` a constraint whose value is the empty list imposes no
restriction: the result is the same as with the constraint absent from
the mapping.  (`filter_dataframe` treats a scalar `"Todos"` as an
ordinary equality constraint; see the counterexample.) -/
theorem inactive_filter_entry_skipped (df : DataFrame) (k : String)
    (fs₁ fs₂ : List (String × FilterVal)) :
    apply_filters df (fs₁ ++ (k, FilterVal.scalar (Cell.str "Todos")) :: fs₂) =
      apply_filters df (fs₁ ++ fs₂)
    ∧ apply_filters df (fs₁ ++ (k, FilterVal.list []) :: fs₂) =
      apply_filters df (fs₁ ++ fs₂)
    ∧ filter_dataframe df (fs₁ ++ (k, FilterVal.list []) :: fs₂) =
      filter_dataframe df (fs₁ ++ fs₂) := by
  refine ⟨?_, ?_, ?_⟩
  · exact runFilters_skip applyStepPred k _ (fun cols => applyStepPred_todos cols k) fs₁ df fs₂
  · exact runFilters_skip applyStepPred k _ (fun cols => applyStepPred_nil_list cols k) fs₁ df fs₂
  · exact runFilters_skip utilsStepPred k _ (fun cols => utilsStepPred_nil_list cols k) fs₁ df fs₂

/-- A one-column, one-row table used to exhibit the `"Todos"` behaviour of
`filter_dataframe`. -/
def cdf1 : DataFrame :=
  ⟨["c"], [[("c", Cell.str "x")]]⟩

/-- C1 (counterexample): `filter_dataframe` does not treat the scalar
sentinel `"Todos"` as "no constraint": on a table whose only row has
`c = "x"`, the mapping `{c: "Todos"}` filters by equality with the string
`"Todos"` and removes the row, whereas dropping the constraint keeps it. -/
theorem filter_dataframe_todos_ctrex :
    filter_dataframe cdf1 [("c", FilterVal.scalar (Cell.str "Todos"))] ≠
      filter_dataframe cdf1 []
    ∧ (filter_dataframe cdf1 [("c", FilterVal.scalar (Cell.str "Todos"))]).rows = [] := by
  constructor
  · decide
  · decide

/-- C5: applying either filter operation with an empty filter mapping
returns the table unchanged, and for every filter mapping the output rows
form an order-preserving sublist of the input rows (filtering never
re-sorts). -/
theorem filter_empty_and_order_spec (df : DataFrame) :
    apply_filters df [] = df ∧ filter_dataframe df [] = df
    ∧ ∀ fs : List (String × FilterVal),
      ((apply_filters df fs).rows.Sublist df.rows
        ∧ (filter_dataframe df fs).rows.Sublist df.rows) := by
  refine ⟨rfl, rfl, ?_⟩
  intro fs
  constructor
  · rw [show apply_filters df fs = runFilters applyStepPred df fs from rfl,
      runFilters_eq_filter]
    exact List.filter_sublist df.rows
  · rw [show filter_dataframe df fs = runFilters utilsStepPred df fs from rfl,
      runFilters_eq_filter]
    exact List.filter_sublist df.rows

/-- C6: both filter operations are idempotent: applying the same filter
mapping twice yields the same result as applying it once. -/
theorem filter_idempotent_spec (df : DataFrame) (fs : List (String × FilterVal)) :
    apply_filters (apply_filters df fs) fs = apply_filters df fs
    ∧ filter_dataframe (filter_dataframe df fs) fs = filter_dataframe df fs := by
  constructor
  · show runFilters applyStepPred (runFilters applyStepPred df fs) fs =
      runFilters applyStepPred df fs
    rw [runFilters_eq_filter applyStepPred fs df,
      runFilters_eq_filter applyStepPred fs ⟨df.cols, _⟩]
    simp [List.filter_filter]
  · show runFilters utilsStepPred (runFilters utilsStepPred df fs) fs =
      runFilters utilsStepPred df fs
    rw [runFilters_eq_filter utilsStepPred fs df,
      runFilters_eq_filter utilsStepPred fs ⟨df.cols, _⟩]
    simp [List.filter_filter]

/-- `calculate_percentage` of utils.py (lines 28-41): the division is
guarded by the `total == 0` test. -/
def calculate_percentage (part total : Rat) : Rat :=
  if total = 0 then 0 else part / total * 100

/-- C10: `calculate_percentage` returns 0 when the total is 0 and
`part / total * 100` otherwise; the guard means the division-by-zero case
is never evaluated. -/
theorem calculate_percentage_spec (part total : Rat) :
    (total = 0 → calculate_percentage part total = 0)
    ∧ (total ≠ 0 → calculate_percentage part total = part / total * 100) := by
  constructor
  · intro h
    simp [calculate_percentage, h]
  · intro h
    simp [calculate_percentage, h]

/-- C10 (witness): concrete evaluations of `calculate_percentage` at a
zero and a nonzero total. -/
theorem calculate_percentage_spec_witness :
    calculate_percentage 3 0 = 0 ∧ calculate_percentage 1 4 = 1 / 4 * 100 :=
  ⟨(calculate_percentage_spec 3 0).1 rfl,
    (calculate_percentage_spec 1 4).2 (by norm_num)⟩

/-- Case folding of a character code, modelling `re.IGNORECASE` on the
character repertoire of this dataset: the ASCII letters A-Z and the
Latin-1 letters À-Þ (the Spanish Á É Í Ó Ú Ü Ñ among them; 215 is the ×
sign, not a letter) fold by adding 32, exactly Unicode simple case
folding on that range. -/
def lowerCode (n : Nat) : Nat :=
  if (65 ≤ n ∧ n ≤ 90) ∨ (192 ≤ n ∧ n ≤ 222 ∧ n ≠ 215) then n + 32 else n

/-- A string as its list of case-folded character codes. -/
def foldCase (s : String) : List Nat :=
  s.data.map (fun c => lowerCode c.toNat)

/-- The character codes Python `re` treats as metacharacters:
`. ^ $ * + ? \x7b \x7d [ ] \ | ( )`. -/
def regexMetaCodes : List Nat :=
  [46, 94, 36, 42, 43, 63, 123, 125, 91, 93, 92, 124, 40, 41]

/-- A query every character of which is a regex literal, so that the
regex `Series.str.contains` compiles from it matches it verbatim. -/
def isLiteralPat (s : String) : Bool :=
  s.data.all (fun c => !(regexMetaCodes.contains c.toNat))

/-- The token list the regex engine effectively runs for a query in the
quantifier-free fragment: code 46 (a dot) matches any character, any
other character matches its case-folded self.  Queries using the other
regex constructs (classes, quantifiers, anchors, groups — some of which
raise `re.error`) are outside the modelled fragment and outside every
statement below, which are guarded by `isLiteralPat` or use the dot. -/
def patTokens (pat : String) : List (Option Nat) :=
  pat.data.map (fun c => if c.toNat = 46 then none else some (lowerCode c.toNat))

/-- Matching the token list against the front of a code list. -/
def tokensMatchAt : List (Option Nat) → List Nat → Bool
  | [], _ => true
  | _ :: _, [] => false
  | some l :: ts, c :: cs => decide (l = c) && tokensMatchAt ts cs
  | none :: ts, _ :: cs => tokensMatchAt ts cs

/-- `re.search`: the token list matches at some position. -/
def searchTokens (ts : List (Option Nat)) : List Nat → Bool
  | [] => tokensMatchAt ts []
  | c :: cs => tokensMatchAt ts (c :: cs) || searchTokens ts cs

/-- `Series.str.contains(query, case=False)` on one cell's text: pandas
defaults to `regex=True`, so the query is run as a case-insensitive
regular expression, here on the quantifier-free fragment. -/
def containsPy (hay pat : String) : Bool :=
  searchTokens (patTokens pat) (foldCase hay)

/-- The spec's reading of the search predicate — plain case-insensitive
substring containment.  This follows the spec's words, to be compared
with `containsPy`, which follows the code. -/
def substrCI (hay pat : String) : Bool :=
  decide (foldCase pat <:+: foldCase hay)

/-- `fillna('').astype(str)` on a cell: null becomes the empty string. -/
def fillnaStr : Cell → String
  | Cell.null => ""
  | Cell.str s => s
  | Cell.num q => toString q

/-- The fixed candidate columns of the smart search
(dashboard.py line 619). -/
def search_fields : List String :=
  ["Título", "Acrónimo del proyecto", "Resumen", "Keywords",
    "Nombre Centro IP Normalizado"]

/-- The combined match mask of the smart search (dashboard.py 622-630):
start from all-false and OR in, for each candidate column present in the
table, the per-column contains mask (`na=False`: nulls never match). -/
def smartMask (df : DataFrame) (query : String) (r : Row) : Bool :=
  search_fields.foldl
    (fun m f =>
      m || (if f ∈ df.cols then containsPy (fillnaStr (getCell r f)) query else false))
    false

/-- The smart search of `show_search` (dashboard.py 615-632).  The guard
`if busqueda_inteligente_submitted and busqueda_inteligente:` means an
empty query never constrains: the table is left as it is. -/
def smartSearch (df : DataFrame) (query : String) : DataFrame :=
  if query = "" then df
  else ⟨df.cols, df.rows.filter (smartMask df query)⟩

theorem foldl_or {α : Type} (g : α → Bool) :
    ∀ (l : List α) (b : Bool), l.foldl (fun m x => m || g x) b = (b || l.any g) := by
  intro l
  induction l with
  | nil => intro b; simp
  | cons x t ih =>
    intro b
    rw [List.foldl_cons, ih (b || g x)]
    simp [Bool.or_assoc]

theorem bool_eq_of_iff {a b : Bool} (h : a = true ↔ b = true) : a = b := by
  by_cases hb : b = true
  · rw [hb, h.mpr hb]
  · have ha : ¬a = true := fun haa => hb (h.mp haa)
    rw [Bool.not_eq_true] at ha hb
    rw [ha, hb]

theorem tokensMatchAt_literal (l : List Nat) :
    ∀ cs : List Nat, tokensMatchAt (l.map some) cs = true ↔ l <+: cs := by
  induction l with
  | nil =>
    intro cs
    simp [tokensMatchAt, List.nil_prefix]
  | cons a t ih =>
    intro cs
    cases cs with
    | nil => simp [tokensMatchAt, List.prefix_nil]
    | cons c cs' =>
      rw [List.map_cons]
      show (decide (a = c) && tokensMatchAt (t.map some) cs') = true ↔ _
      rw [List.cons_prefix_cons, Bool.and_eq_true, decide_eq_true_eq, ih cs']

theorem searchTokens_literal (l : List Nat) :
    ∀ cs : List Nat, searchTokens (l.map some) cs = true ↔ l <:+: cs := by
  intro cs
  induction cs with
  | nil =>
    show tokensMatchAt (l.map some) [] = true ↔ _
    rw [tokensMatchAt_literal, List.prefix_nil, List.infix_nil]
  | cons c cs' ih =>
    show (tokensMatchAt (l.map some) (c :: cs') || searchTokens (l.map some) cs') = true ↔ _
    rw [Bool.or_eq_true, tokensMatchAt_literal, ih, List.infix_cons_iff]

theorem patTokens_literal (pat : String) (h : isLiteralPat pat = true) :
    patTokens pat = (foldCase pat).map some := by
  rw [patTokens, foldCase, List.map_map]
  apply List.map_congr_left
  intro c hc
  have hcl := List.all_eq_true.mp h c hc
  show (if c.toNat = 46 then none else some (lowerCode c.toNat)) = some (lowerCode c.toNat)
  rw [if_neg]
  intro h46
  rw [h46] at hcl
  exact absurd hcl (by decide)

theorem containsPy_literal (hay pat : String) (h : isLiteralPat pat = true) :
    containsPy hay pat = substrCI hay pat := by
  apply bool_eq_of_iff
  rw [containsPy, patTokens_literal pat h, searchTokens_literal, substrCI,
    decide_eq_true_eq]

/-- C3 (amended): for a non-empty query free of regex metacharacters
(the query is then a literal pattern of the regex that
`str.contains(query, case=False)` runs), a row survives the smart search
exactly when some candidate column present in the table contains the
query case-insensitively as a substring (nulls never match); an empty
query excludes no row.  For queries with metacharacters the program runs
them as regular expressions, so the substring reading fails (see the
counterexample). -/
theorem smartSearch_spec (df : DataFrame) (query : String) :
    (query ≠ "" → isLiteralPat query = true → ∀ r : Row,
      (r ∈ (smartSearch df query).rows ↔
        r ∈ df.rows ∧ ∃ f ∈ search_fields, f ∈ df.cols ∧
          substrCI (fillnaStr (getCell r f)) query = true))
    ∧ smartSearch df "" = df := by
  constructor
  · intro hq hlit r
    have hcp : ∀ x : String, containsPy x query = substrCI x query :=
      fun x => containsPy_literal x query hlit
    rw [show smartSearch df query = ⟨df.cols, df.rows.filter (smartMask df query)⟩
      from by rw [smartSearch, if_neg hq]]
    rw [show (DataFrame.mk df.cols (df.rows.filter (smartMask df query))).rows =
      df.rows.filter (smartMask df query) from rfl]
    rw [List.mem_filter]
    apply and_congr_right
    intro _
    rw [show smartMask df query r = search_fields.any
        (fun f => if f ∈ df.cols then containsPy (fillnaStr (getCell r f)) query
          else false) from by rw [smartMask, foldl_or]; simp]
    rw [List.any_eq_true]
    apply exists_congr
    intro f
    by_cases hf : f ∈ df.cols <;> simp [hf, hcp]
  · rw [smartSearch, if_pos rfl]

/-- The row and the one-column table of end-to-end scenario 2 of the
spec: the title "Renewable Energy Systems" in mixed case. -/
def wrow3 : Row := [("Título", Cell.str "Renewable Energy Systems")]

/-- One-row table holding `wrow3`. -/
def wdf3 : DataFrame := ⟨["Título"], [wrow3]⟩

/-- C3 (witness): the query "energy" is non-empty and metacharacter-free
and matches the row whose title is "Renewable Energy Systems"
case-insensitively, so the row is in the smart-search result. -/
theorem smartSearch_spec_witness : wrow3 ∈ (smartSearch wdf3 "energy").rows :=
  ((smartSearch_spec wdf3 "energy").1 (by decide) (by decide) wrow3).mpr (by decide)

/-- A row whose title is the two-letter text "ab". -/
def crow3 : Row := [("Título", Cell.str "ab")]

/-- One-row table holding `crow3`. -/
def cdf3 : DataFrame := ⟨["Título"], [crow3]⟩

/-- C3 (counterexample): the claim reads the query as a literal
substring, but `str.contains` defaults to `regex=True`: the query `"."`
matches the title "ab" in the program (a dot matches any character), so
the row is in the search result, while the claim's substring-containment
mask is false on every candidate column — the claimed mask equality
fails at this input. -/
theorem smartSearch_regex_ctrex :
    crow3 ∈ (smartSearch cdf3 ".").rows
    ∧ ¬(∃ f ∈ search_fields, f ∈ cdf3.cols ∧
        substrCI (fillnaStr (getCell crow3 f)) "." = true) := by
  constructor
  · decide
  · decide

/-- The inputs of the detailed per-field search form (dashboard.py
686-737).  `ref_ue` and `titulo` text boxes always exist; the other six
widgets are created only when their column exists, hence `Option`
(`none` = the widget was never created, Python `None`). -/
structure SearchInput where
  ref_ue : String
  titulo : String
  investigador : Option String
  acronimo : Option String
  programa : Option String
  centro : Option String
  keywords : Option String
  area : Option String

/-- Python truthiness of an optional string (`if investigador:` etc.). -/
def optTruthy : Option String → Bool
  | some s => s ≠ ""
  | none => false

/-- `.astype(str)` on a cell: a null becomes the string `"nan"`. -/
def cellAstype : Cell → String
  | Cell.null => "nan"
  | Cell.str s => s
  | Cell.num q => toString q

/-- `.str.contains(q, case=False, na=False)` on a cell: only string cells
can match. -/
def strCellContains (c : Cell) (q : String) : Bool :=
  match c with
  | Cell.str s => containsPy s q
  | _ => false

/-- `==` between a cell and a Python string. -/
def cellEqStr (c : Cell) (s : String) : Bool :=
  match c with
  | Cell.str t => t = s
  | _ => false

/-- `centro_col` of dashboard.py line 717. -/
def centro_col : String := "Nombre Centro IP Normalizado"

/-- One conditional filter application: the body of each
`if <active>: df_result = df_result[<mask>]` statement. -/
def condSel (df : DataFrame) (b : Bool) (p : Row → Bool) : DataFrame :=
  if b then ⟨df.cols, df.rows.filter p⟩ else df

/-- Sequential application of a list of conditional filters, the shape of
dashboard.py 740-766. -/
def chainSel (df : DataFrame) (blocks : List (Bool × (Row → Bool))) : DataFrame :=
  blocks.foldl (fun d bp => condSel d bp.1 bp.2) df

/-- The eight guarded filters of the detailed search, in source order
(dashboard.py 744-766).  Row filtering never changes the column list, so
each guard's `... in df_result.columns` test is a test against the
original column list.  Note the `!= 'Todos'` sentinel test exists only
for the three selectbox fields (programa, centro, area). -/
def searchBlocks (cols : List String) (inp : SearchInput) :
    List (Bool × (Row → Bool)) :=
  [ (inp.ref_ue ≠ "" ∧ "Ref.UE" ∈ cols,
      fun r => containsPy (cellAstype (getCell r "Ref.UE")) inp.ref_ue),
    (inp.titulo ≠ "" ∧ "Título" ∈ cols,
      fun r => strCellContains (getCell r "Título") inp.titulo),
    (optTruthy inp.investigador = true ∧ "Nombre IP" ∈ cols,
      fun r => strCellContains (getCell r "Nombre IP") (inp.investigador.getD "")),
    (optTruthy inp.acronimo = true ∧ "Acrónimo" ∈ cols,
      fun r => strCellContains (getCell r "Acrónimo") (inp.acronimo.getD "")),
    (optTruthy inp.programa = true ∧ inp.programa.getD "" ≠ "Todos" ∧ "Programa" ∈ cols,
      fun r => cellEqStr (getCell r "Programa") (inp.programa.getD "")),
    (optTruthy inp.centro = true ∧ inp.centro.getD "" ≠ "Todos" ∧ centro_col ∈ cols,
      fun r => cellEqStr (getCell r centro_col) (inp.centro.getD "")),
    (optTruthy inp.keywords = true ∧ "Keywords" ∈ cols,
      fun r => strCellContains (getCell r "Keywords") (inp.keywords.getD "")),
    (optTruthy inp.area = true ∧ inp.area.getD "" ≠ "Todos" ∧ "Area" ∈ cols,
      fun r => cellEqStr (getCell r "Area") (inp.area.getD "")) ]

/-- The structured (detailed) search of `show_search`
(dashboard.py 740-766): start from a copy of the table and apply each
active per-field filter in turn. -/
def structuredSearch (df : DataFrame) (inp : SearchInput) : DataFrame :=
  chainSel df (searchBlocks df.cols inp)

/-- The predicates of the active blocks, in order. -/
def activeSteps (blocks : List (Bool × (Row → Bool))) : List (Row → Bool) :=
  (blocks.filter (fun bp => bp.1)).map (fun bp => bp.2)

/-- Sequential filtering by a list of predicates. -/
def seqApply (ps : List (Row → Bool)) (rows : List Row) : List Row :=
  ps.foldl (fun rs p => rs.filter p) rows

theorem chainSel_eq_filter :
    ∀ (blocks : List (Bool × (Row → Bool))) (df : DataFrame),
    chainSel df blocks =
      ⟨df.cols, df.rows.filter (fun r => blocks.all (fun bp => !bp.1 || bp.2 r))⟩ := by
  intro blocks
  induction blocks with
  | nil =>
    intro df
    show df = _
    have h : df.rows.filter (fun r => List.all [] (fun bp : Bool × (Row → Bool) => !bp.1 || bp.2 r)) = df.rows :=
      List.filter_eq_self.mpr (fun a _ => rfl)
    rw [h]
  | cons bp t ih =>
    intro df
    obtain ⟨b, p⟩ := bp
    show chainSel (condSel df b p) t = _
    cases b with
    | true =>
      rw [show condSel df true p = ⟨df.cols, df.rows.filter p⟩ from rfl,
        ih ⟨df.cols, df.rows.filter p⟩]
      simp only [List.filter_filter]
      congr 1
      apply List.filter_congr
      intro r _
      simp only [List.all_cons, Bool.not_true, Bool.false_or]
      cases p r <;> simp
    | false =>
      rw [show condSel df false p = df from rfl, ih df]
      congr 1

theorem blocks_all_eq_activeSteps :
    ∀ (blocks : List (Bool × (Row → Bool))) (r : Row),
    blocks.all (fun bp => !bp.1 || bp.2 r) = (activeSteps blocks).all (fun p => p r) := by
  intro blocks
  induction blocks with
  | nil => intro r; rfl
  | cons bp t ih =>
    intro r
    obtain ⟨b, p⟩ := bp
    cases b <;> simp [activeSteps, List.filter_cons, ih r]

theorem seqApply_eq_filter :
    ∀ (ps : List (Row → Bool)) (rows : List Row),
    seqApply ps rows = rows.filter (fun r => ps.all (fun p => p r)) := by
  intro ps
  induction ps with
  | nil =>
    intro rows
    show rows = _
    exact (List.filter_eq_self.mpr (fun a _ => rfl)).symm
  | cons p t ih =>
    intro rows
    show seqApply t (rows.filter p) = _
    rw [ih (rows.filter p)]
    simp only [List.filter_filter]
    apply List.filter_congr
    intro r _
    simp only [List.all_cons]
    cases p r <;> simp

theorem perm_all {α : Type} {l₁ l₂ : List α} (h : l₁.Perm l₂) (g : α → Bool) :
    l₁.all g = l₂.all g := by
  have h12 : l₁.all g = true ↔ l₂.all g = true := by
    rw [List.all_eq_true, List.all_eq_true]
    exact ⟨fun hh x hx => hh x (h.mem_iff.mpr hx), fun hh x hx => hh x (h.mem_iff.mp hx)⟩
  by_cases h2 : l₂.all g = true
  · rw [h2, h12.mpr h2]
  · have h1 : ¬l₁.all g = true := fun hh => h2 (h12.mp hh)
    rw [Bool.not_eq_true] at h1 h2
    rw [h1, h2]

/-- C4 (amended): the structured search filters by the AND of its active
per-field predicates; applying those predicates sequentially, in any
order, gives the same rows; a field that is absent from the table or
whose value is empty is skipped, and the sentinel `'Todos'` is skipped
for the three enumerated (selectbox) fields — for the free-text fields
`'Todos'` is an ordinary substring query (see the counterexample) — so
with no active predicates the table is returned unchanged. -/
theorem structuredSearch_spec (df : DataFrame) (inp : SearchInput) :
    ((structuredSearch df inp).rows =
      df.rows.filter (fun r => (activeSteps (searchBlocks df.cols inp)).all (fun p => p r)))
    ∧ (∀ ps : List (Row → Bool), ps.Perm (activeSteps (searchBlocks df.cols inp)) →
        seqApply ps df.rows = (structuredSearch df inp).rows)
    ∧ (activeSteps (searchBlocks df.cols inp) = [] → structuredSearch df inp = df) := by
  have hchar : (structuredSearch df inp).rows =
      df.rows.filter (fun r => (activeSteps (searchBlocks df.cols inp)).all (fun p => p r)) := by
    rw [show structuredSearch df inp = chainSel df (searchBlocks df.cols inp) from rfl,
      chainSel_eq_filter]
    apply List.filter_congr
    intro r _
    exact blocks_all_eq_activeSteps (searchBlocks df.cols inp) r
  refine ⟨hchar, ?_, ?_⟩
  · intro ps hperm
    rw [seqApply_eq_filter, hchar]
    apply List.filter_congr
    intro r _
    exact perm_all hperm (fun p => p r)
  · intro hnil
    rw [show structuredSearch df inp = chainSel df (searchBlocks df.cols inp) from rfl,
      chainSel_eq_filter]
    have h : df.rows.filter
        (fun r => (searchBlocks df.cols inp).all (fun bp => !bp.1 || bp.2 r)) = df.rows := by
      apply List.filter_eq_self.mpr
      intro a _
      rw [blocks_all_eq_activeSteps, hnil]
      rfl
    rw [h]

/-- A two-row table over the Programa and Título columns. -/
def wdf4 : DataFrame :=
  ⟨["Programa", "Título"],
    [[("Programa", Cell.str "H2020"), ("Título", Cell.str "AI for Health")],
      [("Programa", Cell.str "LIFE"), ("Título", Cell.str "Green Energy")]]⟩

/-- A structured-search input with two active predicates: title contains
"ai" and programme equals "H2020". -/
def winp4 : SearchInput :=
  ⟨"", "ai", none, none, some "H2020", none, none, none⟩

/-- C4 (witness): at a concrete table and input, applying the active
predicates sequentially gives the rows of the structured search. -/
theorem structuredSearch_spec_witness :
    seqApply (activeSteps (searchBlocks wdf4.cols winp4)) wdf4.rows =
      (structuredSearch wdf4 winp4).rows :=
  (structuredSearch_spec wdf4 winp4).2.1 _ (List.Perm.refl _)

/-- One-row table with only a Título column. -/
def cdf4 : DataFrame := ⟨["Título"], [[("Título", Cell.str "X")]]⟩

/-- Structured-search input whose only non-empty value is the free-text
title query `"Todos"`. -/
def cinp4 : SearchInput := ⟨"", "Todos", none, none, none, none, none, none⟩

/-- C4 (counterexample): the claim says a field whose query value is the
sentinel `'Todos'` is skipped; but for the free-text title field the code
has no sentinel test, so the query `"Todos"` filters by containment and
removes the only row instead of being skipped. -/
theorem structuredSearch_todos_ctrex :
    (structuredSearch cdf4 cinp4).rows = [] ∧ cdf4.rows ≠ [] := by
  constructor
  · decide
  · decide

/-- The only file name `load_data` ever reads (dashboard.py line 59). -/
def clean_file : String := "9PM_bootcamp_clean.xlsx"

/-- The columns forced to text by the `dtype` argument of `read_excel`
(dashboard.py 64-70). -/
def str_dtype_cols : List String :=
  ["Año Inicio", "Año Fin", "Centro", "Ref.UE", "Cód.área"]

/-- Forcing a cell to text (`dtype=str`): a numeric parse becomes its
text form; nulls stay null. -/
def coerceCell : Cell → Cell
  | Cell.num q => Cell.str (toString q)
  | c => c

/-- `dtype` coercion applied to one row, on the five listed columns. -/
def coerceRow (r : Row) : Row :=
  r.map (fun kv => if kv.1 ∈ str_dtype_cols then (kv.1, coerceCell kv.2) else kv)

/-- `load_data` of dashboard.py (lines 49-77).  The data directory is
modelled as a map from file name to the table a successful read would
yield (`none` = the read raises).  The function performs exactly one
read, of `clean_file`; the `except` branch reports the error and returns
`None`.  No other file name is ever tried. -/
def load_data (env : String → Option DataFrame) : Option DataFrame :=
  match env clean_file with
  | some df => some ⟨df.cols, df.rows.map coerceRow⟩
  | none => none

/-- C2 (amended): the loader reads only the preprocessed file
`9PM_bootcamp_clean.xlsx`: it succeeds exactly when that file is
readable, returning its dtype-coerced contents, and returns the no-data
sentinel otherwise — there is no fallback to any other format variant. -/
theorem load_data_spec (env : String → Option DataFrame) :
    (env clean_file = none → load_data env = none)
    ∧ (∀ d : DataFrame, env clean_file = some d →
        load_data env = some ⟨d.cols, d.rows.map coerceRow⟩) := by
  constructor
  · intro h
    rw [load_data, h]
  · intro d h
    rw [load_data, h]

/-- A data directory holding only the original-format spreadsheet
(modelled under the name `9PM_bootcamp.xlsx`); the preprocessed variants
are absent. -/
def cenvOrig : String → Option DataFrame :=
  fun f => if f = "9PM_bootcamp.xlsx" then some ⟨["Título"], [[("Título", Cell.str "t")]]⟩ else none

/-- C2 (counterexample): on a directory containing only the
original-format spreadsheet, the loader fails (returns the no-data
sentinel) instead of falling back to the spreadsheet that is present. -/
theorem load_data_no_fallback_ctrex :
    load_data cenvOrig = none ∧ cenvOrig "9PM_bootcamp.xlsx" ≠ none := by
  constructor
  · decide
  · decide

/-- A data directory holding the preprocessed file. -/
def wenv2 : String → Option DataFrame :=
  fun f => if f = clean_file then some ⟨["Título"], [[("Título", Cell.str "t")]]⟩ else none

/-- C2 (witness): the amended statement applied at a directory with the
preprocessed file (load succeeds) and at one without it (load fails). -/
theorem load_data_spec_witness :
    load_data wenv2 =
      some ⟨["Título"], ([[("Título", Cell.str "t")]] : List Row).map coerceRow⟩
    ∧ load_data cenvOrig = none :=
  ⟨(load_data_spec wenv2).2 ⟨["Título"], [[("Título", Cell.str "t")]]⟩ (by decide),
    (load_data_spec cenvOrig).1 (by decide)⟩

/-- The Python heap of dataframes: a handle is an index, allocation
appends.  Every pandas operation the two filter functions use —
`df.copy()` and boolean-mask selection `df[mask]` — returns a fresh
frame and writes to no existing one. -/
def readH (hp : List DataFrame) (h : Nat) : DataFrame :=
  hp.getD h ⟨[], []⟩

/-- Allocate a fresh frame, returning the new heap and the new handle. -/
def allocH (hp : List DataFrame) (d : DataFrame) : List DataFrame × Nat :=
  (hp ++ [d], hp.length)

/-- `df.copy()`: a fresh frame with the same contents. -/
def copyH (hp : List DataFrame) (h : Nat) : List DataFrame × Nat :=
  allocH hp (readH hp h)

/-- `df[mask]`: boolean selection allocates a fresh filtered frame. -/
def maskSelH (hp : List DataFrame) (h : Nat) (p : Row → Bool) : List DataFrame × Nat :=
  allocH hp ⟨(readH hp h).cols, (readH hp h).rows.filter p⟩

/-- The filter loop run against the heap: each active entry rebinds the
working handle to a freshly allocated selection. -/
def runFiltersH (sp : List String → String → FilterVal → Option (Row → Bool)) :
    List DataFrame → Nat → List (String × FilterVal) → List DataFrame × Nat
  | hp, h, [] => (hp, h)
  | hp, h, (key, value) :: rest =>
    match sp (readH hp h).cols key value with
    | some p => runFiltersH sp (maskSelH hp h p).1 (maskSelH hp h p).2 rest
    | none => runFiltersH sp hp h rest

/-- `apply_filters` as a heap program: `df_filtered = df.copy()` then the
loop. -/
def apply_filtersH (hp : List DataFrame) (h : Nat)
    (fs : List (String × FilterVal)) : List DataFrame × Nat :=
  runFiltersH applyStepPred (copyH hp h).1 (copyH hp h).2 fs

/-- `filter_dataframe` as a heap program. -/
def filter_dataframeH (hp : List DataFrame) (h : Nat)
    (fs : List (String × FilterVal)) : List DataFrame × Nat :=
  runFiltersH utilsStepPred (copyH hp h).1 (copyH hp h).2 fs

theorem readH_append_lt (hp t : List DataFrame) (i : Nat) (hi : i < hp.length) :
    readH (hp ++ t) i = readH hp i :=
  List.getD_append hp t _ i hi

theorem readH_concat (hp : List DataFrame) (d : DataFrame) :
    readH (hp ++ [d]) hp.length = d := by
  induction hp with
  | nil => rfl
  | cons x s ih => exact ih

theorem runFiltersH_cons
    (sp : List String → String → FilterVal → Option (Row → Bool))
    (hp : List DataFrame) (h : Nat) (key : String) (value : FilterVal)
    (rest : List (String × FilterVal)) :
    runFiltersH sp hp h ((key, value) :: rest) =
      match sp (readH hp h).cols key value with
      | some p => runFiltersH sp (maskSelH hp h p).1 (maskSelH hp h p).2 rest
      | none => runFiltersH sp hp h rest := rfl

theorem runFiltersH_heap
    (sp : List String → String → FilterVal → Option (Row → Bool)) :
    ∀ (fs : List (String × FilterVal)) (hp : List DataFrame) (h : Nat),
    ∃ t, (runFiltersH sp hp h fs).1 = hp ++ t := by
  intro fs
  induction fs with
  | nil => intro hp h; exact ⟨[], (List.append_nil hp).symm⟩
  | cons kv rest ih =>
    intro hp h
    obtain ⟨key, value⟩ := kv
    rw [runFiltersH_cons]
    cases hsp : sp (readH hp h).cols key value with
    | some p =>
      obtain ⟨t, ht⟩ := ih (maskSelH hp h p).1 (maskSelH hp h p).2
      refine ⟨⟨(readH hp h).cols, (readH hp h).rows.filter p⟩ :: t, ?_⟩
      show (runFiltersH sp (maskSelH hp h p).1 (maskSelH hp h p).2 rest).1 = _
      rw [ht, show (maskSelH hp h p).1 =
        hp ++ [⟨(readH hp h).cols, (readH hp h).rows.filter p⟩] from rfl,
        List.append_assoc]
      rfl
    | none => exact ih hp h

theorem runFiltersH_refines
    (sp : List String → String → FilterVal → Option (Row → Bool)) :
    ∀ (fs : List (String × FilterVal)) (hp : List DataFrame) (h : Nat),
    readH (runFiltersH sp hp h fs).1 (runFiltersH sp hp h fs).2 =
      runFilters sp (readH hp h) fs := by
  intro fs
  induction fs with
  | nil => intro hp h; rfl
  | cons kv rest ih =>
    intro hp h
    obtain ⟨key, value⟩ := kv
    rw [runFiltersH_cons, runFilters_cons]
    cases hsp : sp (readH hp h).cols key value with
    | some p =>
      show readH (runFiltersH sp (maskSelH hp h p).1 (maskSelH hp h p).2 rest).1
        (runFiltersH sp (maskSelH hp h p).1 (maskSelH hp h p).2 rest).2 = _
      rw [ih (maskSelH hp h p).1 (maskSelH hp h p).2]
      rw [show readH (maskSelH hp h p).1 (maskSelH hp h p).2 =
        ⟨(readH hp h).cols, (readH hp h).rows.filter p⟩ from readH_concat hp _]
    | none => exact ih hp h

/-- C9: both filter operations, run as heap programs over the pandas
operations they use, leave every pre-existing frame — in particular the
base table — untouched, and their result handle holds exactly the pure
filter of the base table (a fresh filtered copy). -/
theorem filters_preserve_heap_spec (hp : List DataFrame) (h i : Nat)
    (fs : List (String × FilterVal)) (hi : i < hp.length) :
    readH (apply_filtersH hp h fs).1 i = readH hp i
    ∧ readH (filter_dataframeH hp h fs).1 i = readH hp i
    ∧ readH (apply_filtersH hp h fs).1 (apply_filtersH hp h fs).2 =
      apply_filters (readH hp h) fs
    ∧ readH (filter_dataframeH hp h fs).1 (filter_dataframeH hp h fs).2 =
      filter_dataframe (readH hp h) fs := by
  have hlt : i < (hp ++ [readH hp h]).length := by
    rw [List.length_append]
    exact Nat.lt_of_lt_of_le hi (Nat.le_add_right _ _)
  have hbase : readH (hp ++ [readH hp h]) hp.length = readH hp h :=
    readH_concat hp (readH hp h)
  refine ⟨?_, ?_, ?_, ?_⟩
  · obtain ⟨t, ht⟩ := runFiltersH_heap applyStepPred fs (hp ++ [readH hp h]) hp.length
    show readH (runFiltersH applyStepPred (hp ++ [readH hp h]) hp.length fs).1 i = _
    rw [ht, List.append_assoc, readH_append_lt hp _ i hi]
  · obtain ⟨t, ht⟩ := runFiltersH_heap utilsStepPred fs (hp ++ [readH hp h]) hp.length
    show readH (runFiltersH utilsStepPred (hp ++ [readH hp h]) hp.length fs).1 i = _
    rw [ht, List.append_assoc, readH_append_lt hp _ i hi]
  · show readH (runFiltersH applyStepPred (hp ++ [readH hp h]) hp.length fs).1
      (runFiltersH applyStepPred (hp ++ [readH hp h]) hp.length fs).2 = _
    rw [runFiltersH_refines applyStepPred fs (hp ++ [readH hp h]) hp.length, hbase]
    rfl
  · show readH (runFiltersH utilsStepPred (hp ++ [readH hp h]) hp.length fs).1
      (runFiltersH utilsStepPred (hp ++ [readH hp h]) hp.length fs).2 = _
    rw [runFiltersH_refines utilsStepPred fs (hp ++ [readH hp h]) hp.length, hbase]
    rfl

/-- A one-row base table living on the heap. -/
def hdf9 : DataFrame := ⟨["c"], [[("c", Cell.str "y")]]⟩

/-- C9 (witness): the heap statement at a concrete one-frame heap. -/
theorem filters_preserve_heap_spec_witness :
    readH (apply_filtersH [hdf9] 0 []).1 0 = readH [hdf9] 0
    ∧ readH (filter_dataframeH [hdf9] 0 []).1 0 = readH [hdf9] 0
    ∧ readH (apply_filtersH [hdf9] 0 []).1 (apply_filtersH [hdf9] 0 []).2 =
      apply_filters (readH [hdf9] 0) []
    ∧ readH (filter_dataframeH [hdf9] 0 []).1 (filter_dataframeH [hdf9] 0 []).2 =
      filter_dataframe (readH [hdf9] 0) [] :=
  filters_preserve_heap_spec [hdf9] 0 0 [] (by decide)

/-- The numeric values of a column, nulls dropped — the values pandas
`quantile` computes over. -/
def columnNums (df : DataFrame) (column : String) : List Rat :=
  df.rows.filterMap (fun r =>
    match getCell r column with
    | Cell.num x => some x
    | _ => none)

/-- The linear-interpolation quantile of a sorted nonempty list, pandas's
default `interpolation='linear'`: position `q * (n - 1)`, interpolating
between the two neighbouring sorted values. -/
def quantileVal (s : List Rat) (q : Rat) : Rat :=
  s.getD (⌊q * ((s.length - 1 : Nat) : Rat)⌋).toNat 0
    + (q * ((s.length - 1 : Nat) : Rat) - (⌊q * ((s.length - 1 : Nat) : Rat)⌋ : Rat))
      * (s.getD (min ((⌊q * ((s.length - 1 : Nat) : Rat)⌋).toNat + 1) (s.length - 1)) 0
        - s.getD (⌊q * ((s.length - 1 : Nat) : Rat)⌋).toNat 0)

/-- `Series.quantile(q)`: sort the (non-null) values and interpolate; on
an empty series pandas yields `NaN`, modelled as `none`. -/
def quantile (xs : List Rat) (q : Rat) : Option Rat :=
  if xs = [] then none
  else some (quantileVal (xs.insertionSort (fun a b => a ≤ b)) q)

/-- The outlier test of utils.py line 79 applied to one row:
`(df[column] < lower_bound) | (df[column] > upper_bound)`; comparisons
against a null are false. -/
def outlierRow (column : String) (lower_bound upper_bound : Rat) (r : Row) : Bool :=
  match getCell r column with
  | Cell.num x => decide (x < lower_bound) || decide (upper_bound < x)
  | _ => false

/-- `detect_outliers` of utils.py (lines 61-81): `IQR = Q3 - Q1`,
`lower_bound = Q1 - 1.5 * IQR`, `upper_bound = Q3 + 1.5 * IQR` (the
formulas below substitute IQR), and the outliers are the rows strictly
outside the bounds.  When the column has no numeric values both
quantiles are `NaN` (`none`), every comparison is false and the outlier
set is empty. -/
def detect_outliers (df : DataFrame) (column : String) :
    DataFrame × Option Rat × Option Rat :=
  match quantile (columnNums df column) (1/4), quantile (columnNums df column) (3/4) with
  | some Q1v, some Q3v =>
    (⟨df.cols, df.rows.filter
        (outlierRow column (Q1v - 3/2 * (Q3v - Q1v)) (Q3v + 3/2 * (Q3v - Q1v)))⟩,
      some (Q1v - 3/2 * (Q3v - Q1v)), some (Q3v + 3/2 * (Q3v - Q1v)))
  | _, _ => (⟨df.cols, []⟩, none, none)

theorem quantileVal_const (s : List Rat) (v : Rat) (q : Rat) (h1 : q ≤ 1)
    (hlen : 0 < s.length) (hmem : ∀ x ∈ s, x = v) : quantileVal s q = v := by
  have hfl : (⌊q * ((s.length - 1 : Nat) : Rat)⌋).toNat ≤ s.length - 1 := by
    rw [Int.toNat_le]
    calc ⌊q * ((s.length - 1 : Nat) : Rat)⌋
        ≤ ⌊((s.length - 1 : Nat) : Rat)⌋ :=
          Int.floor_le_floor (mul_le_of_le_one_left (Nat.cast_nonneg _) h1)
      _ = ((s.length - 1 : Nat) : Int) := Int.floor_natCast _
  have hi : (⌊q * ((s.length - 1 : Nat) : Rat)⌋).toNat < s.length :=
    Nat.lt_of_le_of_lt hfl (Nat.sub_lt hlen Nat.one_pos)
  have hi2 : min ((⌊q * ((s.length - 1 : Nat) : Rat)⌋).toNat + 1) (s.length - 1) < s.length :=
    Nat.lt_of_le_of_lt (Nat.min_le_right _ _) (Nat.sub_lt hlen Nat.one_pos)
  unfold quantileVal
  rw [List.getD_eq_getElem s 0 hi, List.getD_eq_getElem s 0 hi2]
  rw [hmem _ (List.getElem_mem hi), hmem _ (List.getElem_mem hi2)]
  ring

theorem quantile_const (xs : List Rat) (v : Rat) (hne : xs ≠ [])
    (hall : ∀ x ∈ xs, x = v) (q : Rat) (h1 : q ≤ 1) : quantile xs q = some v := by
  unfold quantile
  rw [if_neg hne]
  congr 1
  apply quantileVal_const _ v q h1
  · rw [List.length_insertionSort]
    exact List.length_pos.mpr hne
  · intro x hx
    exact hall x ((List.perm_insertionSort _ xs).mem_iff.mp hx)

theorem columnNums_const (column : String) (v : Rat) :
    ∀ (l : List Row), (∀ r ∈ l, getCell r column = Cell.num v) →
    (l.filterMap (fun r =>
      match getCell r column with
      | Cell.num x => some x
      | _ => none)) = l.map (fun _ => v) := by
  intro l
  induction l with
  | nil => intro _; rfl
  | cons r t ih =>
    intro h
    rw [List.filterMap_cons, List.map_cons, h r (List.mem_cons_self r t)]
    rw [ih (fun x hx => h x (List.mem_cons_of_mem r hx))]

/-- C7: a row is an outlier exactly when its cell is numeric and its
value is strictly below `Q1 - 1.5 * IQR` or strictly above
`Q3 + 1.5 * IQR` (quartiles of the column's non-null values); and on a
column holding the same value `v` in every row, the outlier set is empty
and both bounds equal `v`. -/
theorem detect_outliers_spec (df : DataFrame) (column : String) :
    (∀ r : Row, r ∈ (detect_outliers df column).1.rows ↔
      r ∈ df.rows ∧ ∃ x Q1v Q3v : Rat, getCell r column = Cell.num x
        ∧ quantile (columnNums df column) (1/4) = some Q1v
        ∧ quantile (columnNums df column) (3/4) = some Q3v
        ∧ (x < Q1v - 3/2 * (Q3v - Q1v) ∨ Q3v + 3/2 * (Q3v - Q1v) < x))
    ∧ (∀ v : Rat, df.rows ≠ [] → (∀ r ∈ df.rows, getCell r column = Cell.num v) →
        (detect_outliers df column).1.rows = []
        ∧ (detect_outliers df column).2.1 = some v
        ∧ (detect_outliers df column).2.2 = some v) := by
  constructor
  · intro r
    unfold detect_outliers
    cases hq1 : quantile (columnNums df column) (1/4) with
    | none =>
      cases hq3 : quantile (columnNums df column) (3/4) with
      | none => simp [hq1]
      | some Q3v => simp [hq1]
    | some Q1v =>
      cases hq3 : quantile (columnNums df column) (3/4) with
      | none => simp [hq1, hq3]
      | some Q3v =>
        simp only [List.mem_filter]
        apply and_congr_right
        intro _
        cases hc : getCell r column with
        | null => simp [outlierRow, hc]
        | str s => simp [outlierRow, hc]
        | num x => simp [outlierRow, hc]
  · intro v hne hall
    have hvals : columnNums df column = df.rows.map (fun _ => v) :=
      columnNums_const column v df.rows hall
    have hvne : columnNums df column ≠ [] := by
      rw [hvals]
      simp [hne]
    have hvall : ∀ x ∈ columnNums df column, x = v := by
      rw [hvals]
      intro x hx
      obtain ⟨r, _, hr⟩ := List.mem_map.mp hx
      exact hr.symm
    have hq1 : quantile (columnNums df column) (1/4) = some v :=
      quantile_const _ v hvne hvall (1/4) (by norm_num)
    have hq3 : quantile (columnNums df column) (3/4) = some v :=
      quantile_const _ v hvne hvall (3/4) (by norm_num)
    have hvv : v - 3/2 * (v - v) = v := by ring
    have hvv2 : v + 3/2 * (v - v) = v := by ring
    refine ⟨?_, ?_, ?_⟩
    · simp only [detect_outliers, hq1, hq3]
      apply List.filter_eq_nil_iff.mpr
      intro r hr
      rw [outlierRow, hall r hr, hvv, hvv2]
      simp
    · simp only [detect_outliers, hq1, hq3]
      rw [hvv]
    · simp only [detect_outliers, hq1, hq3]
      rw [hvv2]

/-- A table whose numeric column holds 5 in every row. -/
def wdf7 : DataFrame :=
  ⟨["Importe"],
    [[("Importe", Cell.num 5)], [("Importe", Cell.num 5)], [("Importe", Cell.num 5)]]⟩

/-- C7 (witness): on the constant column, `detect_outliers` returns no
outliers and both bounds are the constant. -/
theorem detect_outliers_spec_witness :
    (detect_outliers wdf7 "Importe").1.rows = []
    ∧ (detect_outliers wdf7 "Importe").2.1 = some 5
    ∧ (detect_outliers wdf7 "Importe").2.2 = some 5 :=
  (detect_outliers_spec wdf7 "Importe").2 5 (by decide) (by decide)

/-- `.round(2)`: rounding to 2 decimal places (utils.py line 98; ties at
the half-cent differ between binary floats and exact rationals, which no
claim under study touches). -/
def round2 (x : Rat) : Rat :=
  ((round (100 * x) : Int) : Rat) / 100

/-- The column values `value_counts` counts: nulls are dropped
(`dropna=True` default). -/
def colVals (df : DataFrame) (column : String) : List Cell :=
  (df.rows.map (fun r => getCell r column)).filter (fun c => decide (c ≠ Cell.null))

/-- The distinct values paired with their counts. -/
def freqCounts (df : DataFrame) (column : String) : List (Cell × Nat) :=
  (colVals df column).dedup.map (fun v => (v, List.count v (colVals df column)))

/-- `value_counts` sorts by count, descending (tie order is not part of
any claim; pandas's own sort is unstable). -/
def freqSorted (df : DataFrame) (column : String) : List (Cell × Nat) :=
  (freqCounts df column).insertionSort (fun a b => b.2 ≤ a.2)

/-- The full frequency table (utils.py 96-99): value, count
(`Frecuencia`), and percentage of the input row count rounded to 2
places (`Porcentaje`); the display-string column `Porcentaje_str` is
presentational and omitted. -/
def freqTable (df : DataFrame) (column : String) : List (Cell × Nat × Rat) :=
  (freqSorted df column).map
    (fun p => (p.1, p.2, round2 ((p.2 : Rat) / (df.rows.length : Rat) * 100)))

/-- `create_frequency_table` of utils.py (lines 84-103).  Note Python's
`if top_n:` is false for `top_n = 0` as well as for `None`, so a zero
`top_n` returns the whole table. -/
def create_frequency_table (df : DataFrame) (column : String) (top_n : Option Nat) :
    List (Cell × Nat × Rat) :=
  match top_n with
  | some n => if n = 0 then freqTable df column else (freqTable df column).take n
  | none => freqTable df column

theorem round2_close (x : Rat) : |round2 x - x| ≤ 1 / 200 := by
  have heq : round2 x - x = (((round (100 * x) : Int) : Rat) - 100 * x) / 100 := by
    rw [round2]
    ring
  rw [heq, abs_div, show |(100 : Rat)| = 100 from by norm_num]
  have h := abs_sub_round (100 * x)
  rw [abs_sub_comm] at h
  linarith

theorem sum_round2_close :
    ∀ l : List Rat, |(l.map round2).sum - l.sum| ≤ (l.length : Rat) * (1 / 200) := by
  intro l
  induction l with
  | nil => simp
  | cons x t ih =>
    rw [List.map_cons, List.sum_cons, List.sum_cons, List.length_cons]
    have heq : round2 x + (t.map round2).sum - (x + t.sum) =
        (round2 x - x) + ((t.map round2).sum - t.sum) := by ring
    rw [heq]
    calc |(round2 x - x) + ((t.map round2).sum - t.sum)|
        ≤ |round2 x - x| + |(t.map round2).sum - t.sum| := abs_add _ _
      _ ≤ 1 / 200 + (t.length : Rat) * (1 / 200) := add_le_add (round2_close x) ih
      _ = ((t.length + 1 : Nat) : Rat) * (1 / 200) := by push_cast; ring

theorem sum_map_natCast_mul {α : Type} (g : α → Nat) (c : Rat) :
    ∀ l : List α, (l.map (fun a => (g a : Rat) * c)).sum = (((l.map g).sum : Nat) : Rat) * c := by
  intro l
  induction l with
  | nil => simp
  | cons a t ih =>
    rw [List.map_cons, List.sum_cons, ih, List.map_cons, List.sum_cons]
    push_cast
    ring

/-- C8 (amended): on a nonempty table whose column has no nulls, every
frequency-table entry's percentage is its count over the input row
count, times 100, rounded to 2 places; and without a top-N truncation
the percentages sum to 100 up to the accumulated rounding error (at most
half a hundredth per entry). -/
theorem create_frequency_table_spec (df : DataFrame) (column : String)
    (hne : df.rows ≠ []) (hnn : ∀ r ∈ df.rows, getCell r column ≠ Cell.null) :
    (∀ e ∈ create_frequency_table df column none,
      e.2.1 = List.count e.1 (df.rows.map (fun r => getCell r column))
      ∧ e.2.2 = round2 ((e.2.1 : Rat) / (df.rows.length : Rat) * 100))
    ∧ |((create_frequency_table df column none).map (fun e => e.2.2)).sum - 100|
      ≤ ((create_frequency_table df column none).length : Rat) * (1 / 200) := by
  have hvals : colVals df column = df.rows.map (fun r => getCell r column) := by
    apply List.filter_eq_self.mpr
    intro c hc
    obtain ⟨r, hr, hrc⟩ := List.mem_map.mp hc
    rw [← hrc]
    exact decide_eq_true (hnn r hr)
  have hvlen : (colVals df column).length = df.rows.length := by
    rw [hvals, List.length_map]
  have hperm : (freqSorted df column).Perm (freqCounts df column) :=
    List.perm_insertionSort _ _
  have hct : create_frequency_table df column none = freqTable df column := rfl
  constructor
  · intro e he
    rw [hct] at he
    obtain ⟨p, hp, hpe⟩ := List.mem_map.mp he
    have hpc : p ∈ freqCounts df column := hperm.mem_iff.mp hp
    obtain ⟨v, _, hv⟩ := List.mem_map.mp hpc
    rw [← hpe, ← hv]
    constructor
    · show List.count v (colVals df column) = _
      rw [hvals]
    · rfl
  · rw [hct]
    have hN : ((df.rows.length : Nat) : Rat) ≠ 0 := by
      rw [Nat.cast_ne_zero]
      intro h0
      exact hne (List.length_eq_zero.mp h0)
    have hsum1 : ((freqTable df column).map (fun e => e.2.2)).sum =
        ((freqCounts df column).map
          (fun p : Cell × Nat => round2 ((p.2 : Rat) / (df.rows.length : Rat) * 100))).sum := by
      rw [freqTable, List.map_map]
      exact (hperm.map _).sum_eq
    have hsum2 : ((freqCounts df column).map
        (fun p : Cell × Nat => round2 ((p.2 : Rat) / (df.rows.length : Rat) * 100))).sum =
        (((colVals df column).dedup.map
          (fun v => ((List.count v (colVals df column) : Rat) / (df.rows.length : Rat) * 100))).map
          round2).sum := by
      rw [freqCounts, List.map_map, List.map_map]
      rfl
    have hsum0 : ((colVals df column).dedup.map
        (fun v => ((List.count v (colVals df column) : Rat) / (df.rows.length : Rat) * 100))).sum
        = 100 := by
      rw [List.map_congr_left (g := fun v =>
        ((List.count v (colVals df column) : Rat) * (100 / (df.rows.length : Rat))))
        (fun v _ => by ring)]
      rw [sum_map_natCast_mul (fun v => List.count v (colVals df column))
        (100 / (df.rows.length : Rat)) (colVals df column).dedup]
      rw [List.sum_map_count_dedup_eq_length, hvlen]
      field_simp
    have hlen2 : ((create_frequency_table df column none).length : Rat) =
        (((colVals df column).dedup.map
          (fun v => ((List.count v (colVals df column) : Rat) / (df.rows.length : Rat) * 100))).length : Rat) := by
      rw [hct, freqTable, List.length_map, List.length_map,
        show (freqSorted df column).length = (freqCounts df column).length from
          hperm.length_eq,
        freqCounts, List.length_map]
    rw [hct] at hlen2
    rw [hsum1, hsum2, hlen2]
    have hfin := sum_round2_close ((colVals df column).dedup.map
      (fun v => ((List.count v (colVals df column) : Rat) / (df.rows.length : Rat) * 100)))
    rw [hsum0] at hfin
    exact hfin

/-- A three-row table with values a, a, b and no nulls. -/
def wdf8 : DataFrame :=
  ⟨["P"], [[("P", Cell.str "a")], [("P", Cell.str "a")], [("P", Cell.str "b")]]⟩

/-- C8 (witness): the amended statement at a concrete null-free table. -/
theorem create_frequency_table_spec_witness :
    (∀ e ∈ create_frequency_table wdf8 "P" none,
      e.2.1 = List.count e.1 (wdf8.rows.map (fun r => getCell r "P"))
      ∧ e.2.2 = round2 ((e.2.1 : Rat) / (wdf8.rows.length : Rat) * 100))
    ∧ |((create_frequency_table wdf8 "P" none).map (fun e => e.2.2)).sum - 100|
      ≤ ((create_frequency_table wdf8 "P" none).length : Rat) * (1 / 200) :=
  create_frequency_table_spec wdf8 "P" (by decide) (by decide)

/-- A two-row table whose column holds one value and one null. -/
def cdf8 : DataFrame :=
  ⟨["P"], [[("P", Cell.str "a")], [("P", Cell.null)]]⟩

/-- C8 (counterexample): `value_counts` drops the null but the
denominator is the full row count, so on a table of two rows with one
null the only percentage is 50 and the percentages sum to 50, far
outside any rounding error of 100. -/
theorem frequency_table_sum_ctrex :
    ((create_frequency_table cdf8 "P" none).map (fun e => e.2.2)).sum = 50
    ∧ ((create_frequency_table cdf8 "P" none).length : Rat) * (1 / 200)
      < |((create_frequency_table cdf8 "P" none).map (fun e => e.2.2)).sum - 100| := by
  have h1 : create_frequency_table cdf8 "P" none =
      [(Cell.str "a", 1, round2 (((1 : Nat) : Rat) / ((2 : Nat) : Rat) * 100))] := rfl
  have hval : (((1 : Nat) : Rat) / ((2 : Nat) : Rat) * 100) = 50 := by norm_num
  have hr : round2 (((1 : Nat) : Rat) / ((2 : Nat) : Rat) * 100) = 50 := by
    rw [hval, round2, show (100 : Rat) * 50 = ((5000 : Nat) : Rat) from by norm_num,
      round_natCast]
    norm_num
  have habs : |(50 : Rat) - 100| = 50 := by
    rw [show (50 : Rat) - 100 = -50 from by norm_num, abs_neg,
      abs_of_nonneg (by norm_num : (0 : Rat) ≤ 50)]
  constructor
  · rw [h1, List.map_cons, List.map_nil, List.sum_cons, List.sum_nil, hr]
    norm_num
  · rw [h1, List.map_cons, List.map_nil, List.sum_cons, List.sum_nil, hr]
    rw [show (50 : Rat) + 0 = 50 from by norm_num, habs, List.length_cons,
      List.length_nil]
    norm_num

end HorizonteEU
